import Mathlib

/-!
Verification of the customer-data cleaning transformation.

The repository contains two Python source files, each defining a
`clean_dataframe` function over pandas DataFrames with `name` and `email`
columns:

* `src/transform.py` (lines 5-34): the unguarded variant;
* `tests/test_transform.py` (lines 89-124): the variant with an
  empty-table early return and only-if-any-non-null column guards.

We embed DataFrames as ordered lists of (index label, record) pairs, where a
record carries an optional `name`, an optional `email` (null = `None`/`NaN`),
and a passthrough list of other named fields that the function never touches.
The pandas primitives used by the code are embedded per value:

* `Series.str.strip()` / `Series.str.lower()` apply Python's `str.strip` /
  `str.lower` to every non-null entry, leaving nulls null;
* boolean filtering keeps rows (with their index labels) in order;
* `drop_duplicates(subset=['email'], keep='first')` keeps the first row
  bearing each distinct email value;
* `reset_index(drop=True)` renumbers the rows `0, 1, 2, ...`.
-/

/-- One row of the table: optional `name` and `email` text fields, plus any
other named columns, which the transformation carries through unchanged. -/
structure Record where
  name : Option String
  email : Option String
  other : List (String × Option String)
deriving DecidableEq, Repr

/-- A pandas DataFrame: an ordered sequence of rows, each tagged with its
index label (a fresh DataFrame has labels `0, 1, 2, ...`). -/
structure DataFrame where
  rows : List (Nat × Record)
deriving DecidableEq, Repr

/-- Python `str.strip()` (model at the character-list level): remove leading
and trailing whitespace characters. -/
def pyStrip (s : String) : String :=
  List.asString
    (((s.data.dropWhile Char.isWhitespace).reverse.dropWhile
        Char.isWhitespace).reverse)

/-- Python `str.lower()` (model at the character-list level): lowercase every
character. -/
def pyLower (s : String) : String :=
  List.asString (s.data.map Char.toLower)

/-- The canonical form of a text value: `strip` then `lower`, exactly the
order the code applies them (`.str.strip().str.lower()`). -/
def pyCanon (s : String) : String :=
  pyLower (pyStrip s)

/-- pandas `series.str.strip().str.lower()` applied to one cell: non-null
values are stripped then lowercased, nulls stay null. -/
def cellStripLower (v : Option String) : Option String :=
  (v.map pyStrip).map pyLower

/-- pandas `drop_duplicates(subset=['email'], keep='first')` on the rows:
keep each row whose email value has not been seen before it. -/
def dropDuplicatesEmail (seen : List (Option String)) :
    List (Nat × Record) → List (Nat × Record)
  | [] => []
  | p :: ps =>
    if p.2.email ∈ seen then dropDuplicatesEmail seen ps
    else p :: dropDuplicatesEmail (p.2.email :: seen) ps

/-- `clean_dataframe` from `src/transform.py` (lines 5-34), stage by stage:
copy, canonicalize `name`, canonicalize `email`, drop null emails, drop empty
emails, drop duplicate emails keeping the first, reset the index. -/
def clean_dataframe (df : DataFrame) : DataFrame :=
  -- line 16: cleaned_df = df.copy()
  let cleaned : DataFrame := ⟨df.rows⟩
  -- line 19: cleaned_df['name'] = cleaned_df['name'].str.strip().str.lower()
  let cleaned : DataFrame :=
    ⟨cleaned.rows.map fun p => (p.1, { p.2 with name := cellStripLower p.2.name })⟩
  -- line 22: cleaned_df['email'] = cleaned_df['email'].str.strip().str.lower()
  let cleaned : DataFrame :=
    ⟨cleaned.rows.map fun p => (p.1, { p.2 with email := cellStripLower p.2.email })⟩
  -- line 25: cleaned_df = cleaned_df[cleaned_df['email'].notna()]
  let cleaned : DataFrame := ⟨cleaned.rows.filter fun p => p.2.email.isSome⟩
  -- line 26: cleaned_df = cleaned_df[cleaned_df['email'] != '']
  let cleaned : DataFrame := ⟨cleaned.rows.filter fun p => p.2.email != some ""⟩
  -- line 29: cleaned_df = cleaned_df.drop_duplicates(subset=['email'], keep='first')
  let cleaned : DataFrame := ⟨dropDuplicatesEmail [] cleaned.rows⟩
  -- line 32: cleaned_df = cleaned_df.reset_index(drop=True)
  ⟨List.enum (cleaned.rows.map Prod.snd)⟩

/-- `clean_dataframe` from `tests/test_transform.py` (lines 89-124): same
pipeline, but with an early return for an empty table and
only-if-any-non-null guards before the two column canonicalizations. -/
def clean_dataframe_test (df : DataFrame) : DataFrame :=
  -- line 100: cleaned_df = df.copy()
  let cleaned : DataFrame := ⟨df.rows⟩
  -- lines 103-104: if len(cleaned_df) == 0: return cleaned_df
  if cleaned.rows.length = 0 then cleaned
  else
    -- lines 107-108: if cleaned_df['name'].notna().any(): strip+lower name
    let cleaned : DataFrame :=
      if cleaned.rows.any (fun p => p.2.name.isSome) then
        ⟨cleaned.rows.map fun p => (p.1, { p.2 with name := cellStripLower p.2.name })⟩
      else cleaned
    -- lines 111-112: if cleaned_df['email'].notna().any(): strip+lower email
    let cleaned : DataFrame :=
      if cleaned.rows.any (fun p => p.2.email.isSome) then
        ⟨cleaned.rows.map fun p => (p.1, { p.2 with email := cellStripLower p.2.email })⟩
      else cleaned
    -- line 115: cleaned_df = cleaned_df[cleaned_df['email'].notna()]
    let cleaned : DataFrame := ⟨cleaned.rows.filter fun p => p.2.email.isSome⟩
    -- line 116: cleaned_df = cleaned_df[cleaned_df['email'] != '']
    let cleaned : DataFrame := ⟨cleaned.rows.filter fun p => p.2.email != some ""⟩
    -- line 119: drop_duplicates(subset=['email'], keep='first')
    let cleaned : DataFrame := ⟨dropDuplicatesEmail [] cleaned.rows⟩
    -- line 122: reset_index(drop=True)
    ⟨List.enum (cleaned.rows.map Prod.snd)⟩

/-- The canonical image of a whole record: both text fields stripped and
lowercased (nulls passing through), other fields untouched. -/
def canonRec (r : Record) : Record :=
  { r with name := cellStripLower r.name, email := cellStripLower r.email }

/-- Record-level deduplication, the index-free mirror of
`dropDuplicatesEmail`. -/
def dedupRecs (seen : List (Option String)) : List Record → List Record
  | [] => []
  | r :: rs =>
    if r.email ∈ seen then dedupRecs seen rs
    else r :: dedupRecs (r.email :: seen) rs

/-- The whole pipeline at the level of bare records (no index labels):
canonicalize both fields, drop null emails, drop empty emails, deduplicate. -/
def cleanRecs (rs : List Record) : List Record :=
  dedupRecs []
    (((rs.map canonRec).filter fun r => r.email.isSome).filter fun r => r.email != some "")

/-! ### Character-level facts about `Char.toLower` -/

theorem char_toNat_ofNat_valid (n : Nat) (h : n.isValidChar) :
    (Char.ofNat n).toNat = n := by
  simp [Char.ofNat, h, Char.ofNatAux, Char.toNat, UInt32.toNat]

theorem char_eq_iff_toNat {c d : Char} : c = d ↔ c.toNat = d.toNat := by
  constructor
  · rintro rfl; rfl
  · intro h
    exact Char.eq_of_val_eq (UInt32.toNat.inj h)

theorem char_isWhitespace_iff (c : Char) :
    c.isWhitespace = true ↔ (c.toNat = 32 ∨ c.toNat = 9 ∨ c.toNat = 13 ∨ c.toNat = 10) := by
  have h32 : (' ' : Char).toNat = 32 := rfl
  have h9 : ('\t' : Char).toNat = 9 := rfl
  have h13 : ('\r' : Char).toNat = 13 := rfl
  have h10 : ('\n' : Char).toNat = 10 := rfl
  simp only [Char.isWhitespace, Bool.or_eq_true, decide_eq_true_eq, char_eq_iff_toNat,
    h32, h9, h13, h10]
  tauto

theorem char_toLower_toNat (c : Char) (h : 65 ≤ c.toNat ∧ c.toNat ≤ 90) :
    (Char.toLower c).toNat = c.toNat + 32 := by
  have hv : (c.toNat + 32).isValidChar := Or.inl (by omega)
  simp only [Char.toLower, ge_iff_le]
  rw [if_pos ⟨h.1, h.2⟩]
  exact char_toNat_ofNat_valid _ hv

theorem char_toLower_eq_self (c : Char) (h : ¬ (65 ≤ c.toNat ∧ c.toNat ≤ 90)) :
    Char.toLower c = c := by
  simp only [Char.toLower, ge_iff_le]
  rw [if_neg h]

theorem char_toLower_idem (c : Char) : Char.toLower (Char.toLower c) = Char.toLower c := by
  by_cases h : 65 ≤ c.toNat ∧ c.toNat ≤ 90
  · have ht := char_toLower_toNat c h
    apply char_toLower_eq_self
    omega
  · rw [char_toLower_eq_self c h, char_toLower_eq_self c h]

theorem char_isWhitespace_toLower (c : Char) :
    (Char.toLower c).isWhitespace = c.isWhitespace := by
  by_cases h : 65 ≤ c.toNat ∧ c.toNat ≤ 90
  · have ht := char_toLower_toNat c h
    have h1 : (Char.toLower c).isWhitespace = false := by
      rw [← Bool.not_eq_true, char_isWhitespace_iff]
      omega
    have h2 : c.isWhitespace = false := by
      rw [← Bool.not_eq_true, char_isWhitespace_iff]
      omega
    rw [h1, h2]
  · rw [char_toLower_eq_self c h]

/-! ### String-level facts about `pyStrip`, `pyLower`, `pyCanon` -/

theorem data_asString (l : List Char) : (List.asString l).data = l := rfl

theorem pyStrip_data (s : String) :
    (pyStrip s).data =
      List.rdropWhile Char.isWhitespace (s.data.dropWhile Char.isWhitespace) := rfl

theorem pyLower_data (s : String) :
    (pyLower s).data = s.data.map Char.toLower := rfl

theorem string_eq_of_data {s t : String} (h : s.data = t.data) : s = t := by
  cases s
  cases t
  exact congrArg String.mk h

theorem dropWhile_rdropWhile_self {α : Type} {p : α → Bool} {l : List α}
    (h : l.dropWhile p = l) : (l.rdropWhile p).dropWhile p = l.rdropWhile p := by
  obtain ⟨t, ht⟩ : ∃ t, l = l.rdropWhile p ++ t := by
    obtain ⟨u, hu⟩ : l.reverse.dropWhile p <:+ l.reverse := List.dropWhile_suffix p
    refine ⟨u.reverse, ?_⟩
    calc l = l.reverse.reverse := (List.reverse_reverse l).symm
    _ = (u ++ l.reverse.dropWhile p).reverse := by rw [hu]
    _ = (l.reverse.dropWhile p).reverse ++ u.reverse := by rw [List.reverse_append]
    _ = l.rdropWhile p ++ u.reverse := rfl
  cases hy : l.rdropWhile p with
  | nil => simp
  | cons a ys =>
    have h1 : l = a :: (ys ++ t) := by rw [ht, hy]; simp
    have ha : ¬ p a = true := by
      intro hpa
      rw [h1, List.dropWhile_cons_of_pos hpa] at h
      have hlen := congrArg List.length h
      have hle := (List.dropWhile_sublist (p := p) (l := ys ++ t)).length_le
      simp only [List.length_cons] at hlen
      omega
    simp [List.dropWhile_cons, ha]

theorem stripChars_idem (l : List Char) :
    List.rdropWhile Char.isWhitespace
        ((List.rdropWhile Char.isWhitespace (l.dropWhile Char.isWhitespace)).dropWhile
          Char.isWhitespace) =
      List.rdropWhile Char.isWhitespace (l.dropWhile Char.isWhitespace) := by
  rw [dropWhile_rdropWhile_self (List.dropWhile_idempotent Char.isWhitespace l)]
  exact List.rdropWhile_idempotent Char.isWhitespace _

theorem pyStrip_pyStrip (s : String) : pyStrip (pyStrip s) = pyStrip s := by
  apply string_eq_of_data
  rw [pyStrip_data, pyStrip_data]
  exact stripChars_idem s.data

theorem ws_comp_toLower : (Char.isWhitespace ∘ Char.toLower) = Char.isWhitespace := by
  funext c
  exact char_isWhitespace_toLower c

theorem dropWhile_map_toLower (l : List Char) :
    (l.map Char.toLower).dropWhile Char.isWhitespace =
      (l.dropWhile Char.isWhitespace).map Char.toLower := by
  rw [List.dropWhile_map, ws_comp_toLower]

theorem rdropWhile_map_toLower (l : List Char) :
    List.rdropWhile Char.isWhitespace (l.map Char.toLower) =
      (List.rdropWhile Char.isWhitespace l).map Char.toLower := by
  unfold List.rdropWhile
  rw [← List.map_reverse, dropWhile_map_toLower, List.map_reverse]

theorem pyStrip_pyLower (s : String) : pyStrip (pyLower s) = pyLower (pyStrip s) := by
  apply string_eq_of_data
  rw [pyStrip_data, pyLower_data, pyLower_data, pyStrip_data]
  rw [dropWhile_map_toLower, rdropWhile_map_toLower]

theorem pyLower_pyLower (s : String) : pyLower (pyLower s) = pyLower s := by
  apply string_eq_of_data
  rw [pyLower_data, pyLower_data, List.map_map]
  exact List.map_congr_left fun c _ => char_toLower_idem c

theorem pyCanon_idem (s : String) : pyCanon (pyCanon s) = pyCanon s := by
  unfold pyCanon
  rw [pyStrip_pyLower, pyStrip_pyStrip, pyLower_pyLower]

/-! ### Record-level facts -/

theorem cellStripLower_eq_map (v : Option String) : cellStripLower v = v.map pyCanon := by
  cases v <;> rfl

theorem cellStripLower_idem (v : Option String) :
    cellStripLower (cellStripLower v) = cellStripLower v := by
  cases v with
  | none => rfl
  | some s =>
    simp only [cellStripLower_eq_map]
    show some (pyCanon (pyCanon s)) = some (pyCanon s)
    rw [pyCanon_idem]

theorem canonRec_idem (r : Record) : canonRec (canonRec r) = canonRec r := by
  cases r
  simp [canonRec, cellStripLower_idem]

/-! ### Facts about email deduplication -/

theorem dedupRecs_sublist (seen : List (Option String)) (l : List Record) :
    List.Sublist (dedupRecs seen l) l := by
  induction l generalizing seen with
  | nil => simp [dedupRecs]
  | cons r rs ih =>
    simp only [dedupRecs]
    by_cases hmem : r.email ∈ seen
    · rw [if_pos hmem]
      exact (ih seen).cons r
    · rw [if_neg hmem]
      exact (ih (r.email :: seen)).cons₂ r

theorem dedupRecs_not_seen (seen : List (Option String)) (l : List Record) :
    ∀ r ∈ dedupRecs seen l, r.email ∉ seen := by
  induction l generalizing seen with
  | nil => simp [dedupRecs]
  | cons a t ih =>
    simp only [dedupRecs]
    by_cases hmem : a.email ∈ seen
    · rw [if_pos hmem]
      exact ih seen
    · rw [if_neg hmem]
      intro r hr
      rcases List.mem_cons.1 hr with rfl | hr
      · exact hmem
      · intro hin
        exact ih (a.email :: seen) r hr (List.mem_cons_of_mem _ hin)

theorem dedupRecs_emails_nodup (seen : List (Option String)) (l : List Record) :
    ((dedupRecs seen l).map (fun r => r.email)).Nodup := by
  induction l generalizing seen with
  | nil => simp [dedupRecs]
  | cons a t ih =>
    simp only [dedupRecs]
    by_cases hmem : a.email ∈ seen
    · rw [if_pos hmem]
      exact ih seen
    · rw [if_neg hmem, List.map_cons, List.nodup_cons]
      refine ⟨?_, ih _⟩
      intro hin
      obtain ⟨r, hr, he⟩ := List.mem_map.1 hin
      exact dedupRecs_not_seen (a.email :: seen) t r hr (he ▸ List.mem_cons_self _ _)

theorem dedupRecs_eq_self (seen : List (Option String)) (l : List Record)
    (h1 : ∀ r ∈ l, r.email ∉ seen) (h2 : (l.map (fun r => r.email)).Nodup) :
    dedupRecs seen l = l := by
  induction l generalizing seen with
  | nil => rfl
  | cons a t ih =>
    rw [List.map_cons, List.nodup_cons] at h2
    simp only [dedupRecs]
    rw [if_neg (h1 a (List.mem_cons_self a t))]
    congr 1
    apply ih
    · intro r hr hin
      rcases List.mem_cons.1 hin with he | hin
      · exact h2.1 (he ▸ List.mem_map_of_mem (fun r => r.email) hr)
      · exact h1 r (List.mem_cons_of_mem a hr) hin
    · exact h2.2

/-! ### Characterizing the rows of the output DataFrame -/

theorem dropDuplicatesEmail_map_snd (seen : List (Option String))
    (L : List (Nat × Record)) :
    (dropDuplicatesEmail seen L).map Prod.snd = dedupRecs seen (L.map Prod.snd) := by
  induction L generalizing seen with
  | nil => rfl
  | cons p ps ih =>
    simp only [dropDuplicatesEmail, List.map_cons, dedupRecs]
    by_cases hmem : p.2.email ∈ seen
    · rw [if_pos hmem, if_pos hmem]
      exact ih seen
    · rw [if_neg hmem, if_neg hmem, List.map_cons]
      congr 1
      exact ih _

theorem map_snd_filter_email_isSome (L : List (Nat × Record)) :
    (L.filter fun p => p.2.email.isSome).map Prod.snd =
      (L.map Prod.snd).filter fun r => r.email.isSome := by
  induction L with
  | nil => rfl
  | cons p ps ih =>
    by_cases h : p.2.email.isSome <;> simp [List.filter_cons, h, ih]

theorem map_snd_filter_email_ne (L : List (Nat × Record)) :
    (L.filter fun p => p.2.email != some "").map Prod.snd =
      (L.map Prod.snd).filter fun r => r.email != some "" := by
  induction L with
  | nil => rfl
  | cons p ps ih =>
    by_cases h : p.2.email != some "" <;> simp [List.filter_cons, h, ih]

theorem map_snd_map_canon (L : List (Nat × Record)) :
    ((L.map fun p => (p.1, { p.2 with name := cellStripLower p.2.name })).map
        fun p => (p.1, { p.2 with email := cellStripLower p.2.email })).map Prod.snd =
      (L.map Prod.snd).map canonRec := by
  induction L with
  | nil => rfl
  | cons p ps ih =>
    simp only [List.map_cons, ih]
    rfl

theorem clean_dataframe_rows (df : DataFrame) :
    (clean_dataframe df).rows = List.enum (cleanRecs (df.rows.map Prod.snd)) := by
  simp only [clean_dataframe, cleanRecs]
  rw [dropDuplicatesEmail_map_snd, map_snd_filter_email_ne, map_snd_filter_email_isSome,
    map_snd_map_canon]

/-! ### Membership in the cleaned record list -/

theorem mem_cleanRecs {rs : List Record} {r : Record} (h : r ∈ cleanRecs rs) :
    ∃ q ∈ rs, r = canonRec q ∧ r.email.isSome = true ∧ (r.email != some "") = true := by
  unfold cleanRecs at h
  have h1 := (dedupRecs_sublist _ _).subset h
  have h2 := List.of_mem_filter h1
  have h3 := List.mem_of_mem_filter h1
  have h4 := List.of_mem_filter h3
  have h5 := List.mem_of_mem_filter h3
  obtain ⟨q, hq, rfl⟩ := List.mem_map.1 h5
  exact ⟨q, hq, rfl, h4, h2⟩

/-! ### The claims -/

/-- C6: applying either variant of `clean_dataframe` to the empty table
returns the empty table (same shape, no error): the unguarded variant from
`src/transform.py` and the guarded variant from `tests/test_transform.py`
both map zero records to zero records. -/
theorem clean_dataframe_empty :
    clean_dataframe ⟨[]⟩ = ⟨[]⟩ ∧ clean_dataframe_test ⟨[]⟩ = ⟨[]⟩ := by
  constructor <;> rfl

/-- C10: the output of `clean_dataframe` never has more records than the
input: the transformation only canonicalizes fields and drops records. -/
theorem clean_dataframe_length_le (df : DataFrame) :
    (clean_dataframe df).rows.length ≤ df.rows.length := by
  rw [clean_dataframe_rows, List.enum_length]
  calc (cleanRecs (df.rows.map Prod.snd)).length
      ≤ ((df.rows.map Prod.snd).map canonRec).length := by
        unfold cleanRecs
        exact le_trans (dedupRecs_sublist _ _).length_le
          (le_trans (List.length_filter_le _ _) (List.length_filter_le _ _))
    _ = df.rows.length := by simp

/-- C4: no two records in the output of `clean_dataframe` have the same
stored `email` value (and stored emails are the canonical ones, so
uniqueness holds on canonical emails). -/
theorem clean_dataframe_emails_nodup (df : DataFrame) :
    ((clean_dataframe df).rows.map (fun p => p.2.email)).Nodup := by
  rw [clean_dataframe_rows]
  have h : (List.enum (cleanRecs (df.rows.map Prod.snd))).map (fun p => p.2.email) =
      (cleanRecs (df.rows.map Prod.snd)).map (fun r => r.email) := by
    calc (List.enum (cleanRecs (df.rows.map Prod.snd))).map (fun p => p.2.email)
        = ((List.enum (cleanRecs (df.rows.map Prod.snd))).map Prod.snd).map
            (fun r => r.email) := by
          rw [List.map_map]
          rfl
      _ = (cleanRecs (df.rows.map Prod.snd)).map (fun r => r.email) := by
          rw [List.enum_map_snd]
  rw [h]
  unfold cleanRecs
  exact dedupRecs_emails_nodup _ _

/-- C5: the records of the output of `clean_dataframe` form a stable
sub-sequence of the canonicalized input records (surviving records keep
their relative input order), and the output index is the fresh contiguous
0-based sequence `0, 1, ..., n-1`. -/
theorem clean_dataframe_stable_reindex (df : DataFrame) :
    List.Sublist ((clean_dataframe df).rows.map Prod.snd)
        (df.rows.map (fun p => canonRec p.2)) ∧
      (clean_dataframe df).rows.map Prod.fst =
        List.range ((clean_dataframe df).rows.length) := by
  rw [clean_dataframe_rows]
  constructor
  · rw [List.enum_map_snd]
    have hmap : (df.rows.map Prod.snd).map canonRec = df.rows.map (fun p => canonRec p.2) := by
      rw [List.map_map]
      rfl
    unfold cleanRecs
    refine (dedupRecs_sublist _ _).trans ((List.filter_sublist _).trans
      ((List.filter_sublist _).trans ?_))
    rw [hmap]
  · rw [List.enum_map_fst, List.enum_length]

/-- C3: every record in the output of `clean_dataframe` has a non-null,
non-empty email (whitespace-only emails having been trimmed to the empty
string before the filter, hence removed). -/
theorem clean_dataframe_email_nonempty (df : DataFrame) :
    ∀ r ∈ (clean_dataframe df).rows.map Prod.snd, ∃ s, r.email = some s ∧ s ≠ "" := by
  intro r hr
  rw [clean_dataframe_rows, List.enum_map_snd] at hr
  obtain ⟨q, hq, rfl, hsome, hne⟩ := mem_cleanRecs hr
  obtain ⟨s, hs⟩ := Option.isSome_iff_exists.1 hsome
  refine ⟨s, hs, ?_⟩
  intro hempty
  subst hempty
  rw [hs] at hne
  simp at hne

/-- C3 witness: on a concrete table with a whitespace-only email, a null
email, and a padded mixed-case email, the surviving record satisfies the
conclusion. -/
theorem clean_dataframe_email_nonempty_witness :
    ((⟨some "a", some "x@y.com", []⟩ : Record) ∈
        (clean_dataframe ⟨[(0, ⟨some "W", some "  ", []⟩), (1, ⟨some "N", none, []⟩),
          (2, ⟨some " A ", some " X@Y.com ", []⟩)]⟩).rows.map Prod.snd) ∧
      ∃ s, (⟨some "a", some "x@y.com", []⟩ : Record).email = some s ∧ s ≠ "" :=
  ⟨by decide,
    clean_dataframe_email_nonempty
      ⟨[(0, ⟨some "W", some "  ", []⟩), (1, ⟨some "N", none, []⟩),
        (2, ⟨some " A ", some " X@Y.com ", []⟩)]⟩ _ (by decide)⟩

/-- C2: every record in the output of `clean_dataframe` stores the trimmed,
lowercased form of the original record's email, the trimmed, lowercased form
of its name when the name was non-null (null names staying null, as
`Option.map` leaves `none` untouched), and its other fields unchanged. -/
theorem clean_dataframe_canonicalizes (df : DataFrame) :
    ∀ r ∈ (clean_dataframe df).rows.map Prod.snd,
      ∃ q ∈ df.rows, r.email = q.2.email.map pyCanon ∧
        r.name = q.2.name.map pyCanon ∧ r.other = q.2.other := by
  intro r hr
  rw [clean_dataframe_rows, List.enum_map_snd] at hr
  obtain ⟨q0, hq0, rfl, _, _⟩ := mem_cleanRecs hr
  obtain ⟨q, hq, rfl⟩ := List.mem_map.1 hq0
  exact ⟨q, hq, by simp [canonRec, cellStripLower_eq_map], by
    simp [canonRec, cellStripLower_eq_map], rfl⟩

/-- C2 witness: on a concrete table, the surviving record's fields are the
canonical images of the matching input record's fields. -/
theorem clean_dataframe_canonicalizes_witness :
    ((⟨some "john doe", some "j@x.com", [("city", some "Pune")]⟩ : Record) ∈
        (clean_dataframe ⟨[(0, ⟨some " John DOE ", some " J@X.com ",
          [("city", some "Pune")]⟩)]⟩).rows.map Prod.snd) ∧
      ∃ q ∈ (⟨[(0, ⟨some " John DOE ", some " J@X.com ", [("city", some "Pune")]⟩)]⟩ :
          DataFrame).rows,
        (⟨some "john doe", some "j@x.com", [("city", some "Pune")]⟩ : Record).email =
            q.2.email.map pyCanon ∧
          (⟨some "john doe", some "j@x.com", [("city", some "Pune")]⟩ : Record).name =
              q.2.name.map pyCanon ∧
            (⟨some "john doe", some "j@x.com", [("city", some "Pune")]⟩ : Record).other =
              q.2.other :=
  ⟨by decide,
    clean_dataframe_canonicalizes
      ⟨[(0, ⟨some " John DOE ", some " J@X.com ", [("city", some "Pune")]⟩)]⟩ _ (by decide)⟩

/-! ### Idempotence -/

theorem cleanRecs_mem_canon {rs : List Record} {r : Record} (h : r ∈ cleanRecs rs) :
    canonRec r = r := by
  obtain ⟨q, _, rfl, _, _⟩ := mem_cleanRecs h
  exact canonRec_idem q

theorem cleanRecs_idem (rs : List Record) : cleanRecs (cleanRecs rs) = cleanRecs rs := by
  have hcanon : (cleanRecs rs).map canonRec = cleanRecs rs :=
    (List.map_congr_left fun r hr => cleanRecs_mem_canon hr).trans (List.map_id _)
  have hsome : (cleanRecs rs).filter (fun r => r.email.isSome) = cleanRecs rs :=
    List.filter_eq_self.2 fun r hr => (mem_cleanRecs hr).choose_spec.2.2.1
  have hne : (cleanRecs rs).filter (fun r => r.email != some "") = cleanRecs rs :=
    List.filter_eq_self.2 fun r hr => (mem_cleanRecs hr).choose_spec.2.2.2
  have hnodup : ((cleanRecs rs).map (fun r => r.email)).Nodup := by
    unfold cleanRecs
    exact dedupRecs_emails_nodup _ _
  conv_lhs => rw [cleanRecs]
  rw [hcanon, hsome, hne]
  exact dedupRecs_eq_self [] _ (by simp) hnodup

/-- C8: `clean_dataframe` is idempotent: applying it to its own output
returns that output unchanged (no rows removed, no field values changed). -/
theorem clean_dataframe_idem (df : DataFrame) :
    clean_dataframe (clean_dataframe df) = clean_dataframe df := by
  have hmk : ∀ a b : DataFrame, a.rows = b.rows → a = b := by
    intro a b h
    cases a
    cases b
    exact congrArg DataFrame.mk h
  apply hmk
  rw [clean_dataframe_rows (clean_dataframe df), clean_dataframe_rows df,
    List.enum_map_snd, cleanRecs_idem]

/-! ### Equivalence of the two implementation variants -/

theorem map_name_id {L : List (Nat × Record)}
    (h : ¬ L.any (fun p => p.2.name.isSome) = true) :
    L.map (fun p => (p.1, { p.2 with name := cellStripLower p.2.name })) = L := by
  simp only [List.any_eq_true, not_exists] at h
  refine (List.map_congr_left ?_).trans (List.map_id _)
  intro p hp
  obtain ⟨i, r⟩ := p
  obtain ⟨n, e, o⟩ := r
  have hn : n = none := by
    cases hq : n with
    | none => rfl
    | some s =>
      exfalso
      exact h ⟨i, ⟨some s, e, o⟩⟩ ⟨hq ▸ hp, rfl⟩
  subst hn
  rfl

theorem map_email_id {L : List (Nat × Record)}
    (h : ¬ L.any (fun p => p.2.email.isSome) = true) :
    L.map (fun p => (p.1, { p.2 with email := cellStripLower p.2.email })) = L := by
  simp only [List.any_eq_true, not_exists] at h
  refine (List.map_congr_left ?_).trans (List.map_id _)
  intro p hp
  obtain ⟨i, r⟩ := p
  obtain ⟨n, e, o⟩ := r
  have he : e = none := by
    cases hq : e with
    | none => rfl
    | some s =>
      exfalso
      exact h ⟨i, ⟨n, some s, o⟩⟩ ⟨hq ▸ hp, rfl⟩
  subst he
  rfl

/-- C7: the two implementation variants compute the same output on every
input table: the empty-table early return and the only-if-any-non-null
column guards of the test variant are semantic no-ops (canonicalizing a
fully-null column changes nothing, since nulls pass through unchanged). -/
theorem clean_dataframe_variants_agree (df : DataFrame) :
    clean_dataframe_test df = clean_dataframe df := by
  obtain ⟨rows⟩ := df
  by_cases hlen : rows.length = 0
  · have hnil : rows = [] := List.eq_nil_of_length_eq_zero hlen
    subst hnil
    rfl
  · simp only [clean_dataframe_test, clean_dataframe]
    rw [if_neg hlen]
    by_cases hn : rows.any (fun p => p.2.name.isSome) = true
    · rw [if_pos hn]
      by_cases he : (rows.map (fun p =>
          (p.1, { p.2 with name := cellStripLower p.2.name }))).any
            (fun p => p.2.email.isSome) = true
      · rw [if_pos he]
      · rw [if_neg he, map_email_id he]
    · rw [if_neg hn, map_name_id hn]
      by_cases he : rows.any (fun p => p.2.email.isSome) = true
      · rw [if_pos he]
      · rw [if_neg he, map_email_id he]

/-! ### First-wins deduplication -/

theorem dedupRecs_first (x : Record) (B : List Record) :
    ∀ (A : List Record) (seen : List (Option String)),
      (∀ a ∈ A, a.email ≠ x.email) → x.email ∉ seen →
      x ∈ dedupRecs seen (A ++ x :: B) ∧
        ∀ r ∈ dedupRecs seen (A ++ x :: B), r.email = x.email → r = x := by
  intro A
  induction A with
  | nil =>
    intro seen _ hseen
    simp only [List.nil_append, dedupRecs]
    rw [if_neg hseen]
    refine ⟨List.mem_cons_self _ _, ?_⟩
    intro r hr hre
    rcases List.mem_cons.1 hr with rfl | hr
    · rfl
    · exact absurd (hre ▸ List.mem_cons_self _ _) (dedupRecs_not_seen _ _ r hr)
  | cons a A ih =>
    intro seen hA hseen
    have ha : a.email ≠ x.email := hA a (List.mem_cons_self _ _)
    have hA' : ∀ b ∈ A, b.email ≠ x.email := fun b hb => hA b (List.mem_cons_of_mem _ hb)
    simp only [List.cons_append, dedupRecs]
    by_cases hmem : a.email ∈ seen
    · rw [if_pos hmem]
      exact ih seen hA' hseen
    · rw [if_neg hmem]
      have hseen' : x.email ∉ a.email :: seen := by
        intro h
        rcases List.mem_cons.1 h with h | h
        · exact ha h.symm
        · exact hseen h
      obtain ⟨h1, h2⟩ := ih (a.email :: seen) hA' hseen'
      refine ⟨List.mem_cons_of_mem _ h1, ?_⟩
      intro r hr hre
      rcases List.mem_cons.1 hr with rfl | hr
      · exact absurd hre ha
      · exact h2 r hr hre

/-- C1 (amended): for a record `p` whose email canonicalizes to a non-empty
value, if no earlier input record's email canonicalizes to the same value,
then the output keeps the canonical image of `p` (its name and other fields
coming from `p`), and every output record bearing that canonical email is
that one record — all later records with the same canonical email are
dropped. (The amendment restricts the claim to groups whose shared canonical
email is non-null and non-empty; see the counterexample for why the claim as
stated fails on whitespace-only email groups.) -/
theorem clean_dataframe_first_wins (pre post : List (Nat × Record)) (p : Nat × Record)
    (e : String) (he : p.2.email = some e) (hne : pyCanon e ≠ "")
    (hfirst : ∀ q ∈ pre, q.2.email.map pyCanon ≠ some (pyCanon e)) :
    canonRec p.2 ∈ (clean_dataframe ⟨pre ++ p :: post⟩).rows.map Prod.snd ∧
      ∀ r ∈ (clean_dataframe ⟨pre ++ p :: post⟩).rows.map Prod.snd,
        r.email = some (pyCanon e) → r = canonRec p.2 := by
  have hx : (canonRec p.2).email = some (pyCanon e) := by
    simp [canonRec, cellStripLower_eq_map, he]
  have hx1 : ((canonRec p.2).email.isSome) = true := by rw [hx]; rfl
  have hx2 : ((canonRec p.2).email != some "") = true := by
    rw [hx]
    simpa using hne
  rw [clean_dataframe_rows, List.enum_map_snd]
  unfold cleanRecs
  rw [show (DataFrame.mk (pre ++ p :: post)).rows = pre ++ p :: post from rfl]
  rw [List.map_append, List.map_cons, List.map_append, List.map_cons]
  rw [List.filter_append, List.filter_cons, if_pos hx1]
  rw [List.filter_append, List.filter_cons, if_pos hx2]
  have hA : ∀ a ∈ (((pre.map Prod.snd).map canonRec).filter
      (fun r => r.email.isSome)).filter (fun r => r.email != some ""),
      a.email ≠ (canonRec p.2).email := by
    intro a ha
    have ha0 := List.mem_of_mem_filter (List.mem_of_mem_filter ha)
    obtain ⟨q0, hq0, rfl⟩ := List.mem_map.1 ha0
    obtain ⟨q, hq, rfl⟩ := List.mem_map.1 hq0
    rw [hx]
    have h := hfirst q hq
    simpa [canonRec, cellStripLower_eq_map] using h
  obtain ⟨h1, h2⟩ := dedupRecs_first (canonRec p.2) _ _ [] hA (by simp)
  refine ⟨h1, ?_⟩
  intro r hr hre
  exact h2 r hr (hre.trans hx.symm)

/-- C1 counterexample: the claim as stated fails when the shared canonical
email is the empty string. Both input records have email `" "`, so their
emails are equal after canonicalization and the record named `"A"` appears
earliest; yet the output does not keep that earliest record — it is empty,
because the canonicalized email is `""` and the empty-email filter removes
the whole group. -/
theorem clean_dataframe_first_wins_cex :
    ((⟨some "A", some " ", []⟩ : Record).email.map pyCanon =
        (⟨some "B", some " ", []⟩ : Record).email.map pyCanon) ∧
      clean_dataframe ⟨[(0, ⟨some "A", some " ", []⟩), (1, ⟨some "B", some " ", []⟩)]⟩ =
          ⟨[]⟩ ∧
        canonRec (⟨some "A", some " ", []⟩ : Record) ∉
          (clean_dataframe ⟨[(0, ⟨some "A", some " ", []⟩),
            (1, ⟨some "B", some " ", []⟩)]⟩).rows.map Prod.snd := by
  decide

/-- C1 witness: on a concrete table where the second record's padded,
mixed-case email canonically collides with a later record, the second
record's canonical image survives and is the only output record with that
canonical email. -/
theorem clean_dataframe_first_wins_witness :
    ((1, (⟨some "John Doe", some " JOHN@X.com ", []⟩ : Record)).2.email =
        some " JOHN@X.com ") ∧
      pyCanon " JOHN@X.com " ≠ "" ∧
      (∀ q ∈ [((0 : Nat), (⟨some "Jane", some "jane@x.com", []⟩ : Record))],
        q.2.email.map pyCanon ≠ some (pyCanon " JOHN@X.com ")) ∧
      (canonRec (⟨some "John Doe", some " JOHN@X.com ", []⟩ : Record) ∈
          (clean_dataframe ⟨[(0, ⟨some "Jane", some "jane@x.com", []⟩),
            (1, ⟨some "John Doe", some " JOHN@X.com ", []⟩),
            (2, ⟨some "Dup", some "john@x.com", []⟩)]⟩).rows.map Prod.snd) ∧
        ∀ r ∈ (clean_dataframe ⟨[(0, ⟨some "Jane", some "jane@x.com", []⟩),
            (1, ⟨some "John Doe", some " JOHN@X.com ", []⟩),
            (2, ⟨some "Dup", some "john@x.com", []⟩)]⟩).rows.map Prod.snd,
          r.email = some (pyCanon " JOHN@X.com ") →
            r = canonRec (⟨some "John Doe", some " JOHN@X.com ", []⟩ : Record) :=
  ⟨by decide, by decide, by decide,
    clean_dataframe_first_wins
      [(0, ⟨some "Jane", some "jane@x.com", []⟩)]
      [(2, ⟨some "Dup", some "john@x.com", []⟩)]
      (1, ⟨some "John Doe", some " JOHN@X.com ", []⟩)
      " JOHN@X.com " (by decide) (by decide) (by decide)⟩
